import Mathlib

/-!
Shallow embedding of the netsrv messaging bridge (Python) in Lean 4.

Sources embedded here:
- `app/core/mqtt_client.py`: topic matching, disconnect handling,
  network-quality tiers, connection-stability cooldown, `publish`.
- `app/services/data_forwarder.py`: rate-limited queue drain, batching,
  hash-value normalization, `_send_message`.
- `app/services/point_reader.py`, `point_writer.py`, `data_caller.py`:
  the three request/reply protocols over an abstract Redis store.

Python machine floats are modelled as exact rationals (`Rat`); `time.time()`
reads are explicit rational parameters; the Redis store is an association
list from keys to typed values; inbound MQTT payloads are modelled as either
a parse failure or a parsed string-valued JSON object.
-/

namespace Netsrv

/-- A JSON-ish value produced by the numeric normalization of the forwarder
and the point reader: an unchanged string, an integer (Python `int`), or a
float (modelled exactly as a rational). -/
inductive Value where
  | str (s : String)
  | int (n : Int)
  | rat (q : Rat)
deriving Repr, DecidableEq

/-! ### Python `float(...)` on decimal strings

`data_forwarder._convert_hash_values` and `point_reader._get_redis_data`
call Python `float(value)` inside `try/except (ValueError, TypeError)`.
We model `float` on decimal string literals: optional surrounding spaces,
an optional sign, digits with an optional single decimal point (at least
one digit overall), and an optional decimal exponent.  The result is kept
as an exact rational. -/

def isDigitChar (c : Char) : Bool := ('0' ≤ c) && (c ≤ '9')

def digitsToNat (l : List Char) : Nat :=
  l.foldl (fun a c => 10 * a + (c.toNat - 48)) 0

/-- Strip one leading `+`/`-` sign; returns (isNegative, rest). -/
def splitSign : List Char → Bool × List Char
  | '+' :: rest => (false, rest)
  | '-' :: rest => (true, rest)
  | l => (false, l)

/-- The rational denoted by sign, integer digits, fraction digits and a
decimal exponent. -/
def ratOfParts (neg : Bool) (ip fp : List Char) (e : Int) : Rat :=
  let m : Int := (digitsToNat (ip ++ fp) : Int)
  let m : Int := if neg then -m else m
  let e2 : Int := e - (fp.length : Int)
  if 0 ≤ e2 then ((m * 10 ^ e2.toNat : Int) : Rat)
  else Rat.divInt m ((10 ^ (-e2).toNat : Nat) : Int)

/-- Parse the optional exponent suffix and require end of input. -/
def finishExponent (neg : Bool) (ip fp : List Char) (rest : List Char) : Option Rat :=
  match rest with
  | [] => some (ratOfParts neg ip fp 0)
  | c :: r2 =>
    if c = 'e' || c = 'E' then
      let sr := splitSign r2
      let ed := sr.2.takeWhile isDigitChar
      let r4 := sr.2.dropWhile isDigitChar
      if ed.isEmpty || !r4.isEmpty then none
      else
        let e : Int := (digitsToNat ed : Int)
        some (ratOfParts neg ip fp (if sr.1 then -e else e))
    else none

/-- Model of Python `float(s)` restricted to decimal literals; `none`
models the `ValueError` branch. -/
def parsePyFloat (s : String) : Option Rat :=
  let l := s.data.dropWhile (fun c => c = ' ')
  let l := (l.reverse.dropWhile (fun c => c = ' ')).reverse
  let sl := splitSign l
  let ip := sl.2.takeWhile isDigitChar
  let l1 := sl.2.dropWhile isDigitChar
  match l1 with
  | '.' :: l2 =>
    let fp := l2.takeWhile isDigitChar
    let l3 := l2.dropWhile isDigitChar
    if ip.isEmpty && fp.isEmpty then none
    else finishExponent sl.1 ip fp l3
  | _ =>
    if ip.isEmpty then none else finishExponent sl.1 ip [] l1

/-! ### Numeric normalization (`data_forwarder._convert_hash_values` and the
hash branch of `point_reader._get_redis_data`) -/

/-- The per-value conversion of `data_forwarder._convert_hash_values`:
`float(value)`; on success an integral float becomes `int(float_value)`,
a non-integral one stays a float; on `ValueError`/`TypeError` the original
string is kept. -/
def convertValue (value : String) : Value :=
  match parsePyFloat value with
  | some q => if q.den = 1 then Value.int q.num else Value.rat q
  | none => Value.str value

/-- Embeds `data_forwarder._convert_hash_values`: applies `convertValue` to every
field of a hash, keys unchanged. -/
def convertHashValues (hashData : List (String × String)) : List (String × Value) :=
  hashData.map (fun p => (p.1, convertValue p.2))

/-- The inline numeric conversion in the hash branch of
`point_reader._get_redis_data` (lines 161-168), embedded separately from
`convertValue` because the Python code duplicates it. -/
def readerNormalize (value : String) : Value :=
  match parsePyFloat value with
  | some q => if q.den = 1 then Value.int q.num else Value.rat q
  | none => Value.str value

/-! ### Topic matching (`MQTTClient._topic_match`) -/

/-- Python `sep.join`-inverse `s.split(sep)` for a one-character separator:
splits at every occurrence, keeping empty segments (`"".split(c) == [""]`). -/
def splitCharAux (sep : Char) : List Char → List Char → List (List Char)
  | [], acc => [acc.reverse]
  | x :: xs, acc =>
    if x = sep then acc.reverse :: splitCharAux sep xs []
    else splitCharAux sep xs (x :: acc)

/-- Python `s.split(sep)` on a String. -/
def splitChar (sep : Char) (s : String) : List String :=
  (splitCharAux sep s.data []).map (fun l => String.mk l)

/-- Python `c in s` for a one-character `c`. -/
def containsChar (s : String) (c : Char) : Bool :=
  s.data.contains c

/-- The wildcard loop of `_topic_match`: walks pattern segments and topic
segments in lockstep; `#` succeeds immediately, `+` skips one topic
segment, a literal must equal the topic segment; running out of topic
segments fails, running out of pattern segments succeeds (extra topic
segments are ignored). -/
def matchParts : List String → List String → Bool
  | [], _ => true
  | _ :: _, [] => false
  | p :: ps, t :: ts =>
    if p = "#" then true
    else if p = "+" then matchParts ps ts
    else if p = t then matchParts ps ts
    else false

/-- Embeds `MQTTClient._topic_match`: exact match, otherwise wildcard matching on
`/`-separated segments; a pattern with more segments than the topic and no
`#` segment cannot match; a pattern with no wildcard character and not
equal to the topic does not match. -/
def topicMatch (pattern : String) (topic : String) : Bool :=
  if pattern = topic then true
  else if containsChar pattern '+' || containsChar pattern '#' then
    let patternParts := splitChar '/' pattern
    let topicParts := splitChar '/' topic
    if patternParts.length > topicParts.length && !(patternParts.contains "#") then false
    else matchParts patternParts topicParts
  else false

/-! ### Connection manager disconnect handling (`MQTTClient`)

State fields are the instance attributes touched by `_on_disconnect`,
`_check_connection_stability` and `_get_network_quality_level`.
`time.time()` reads are explicit rational parameters. -/

inductive NetworkQuality where
  | excellent | good | fair | poor | veryPoor
deriving Repr, DecidableEq

/-- Embeds `MQTTClient._get_network_quality_level`, as a function of
`self.disconnect_count`. -/
def getNetworkQualityLevel (disconnectCount : Nat) : NetworkQuality :=
  if disconnectCount = 0 then .excellent
  else if disconnectCount ≤ 3 then .good
  else if disconnectCount ≤ 10 then .fair
  else if disconnectCount ≤ 20 then .poor
  else .veryPoor

structure ClientState where
  /-- Field `self.is_connected` -/
  connectedFlag : Bool
  /-- Field `self.last_disconnect_time` -/
  lastDisconnectTime : Rat
  /-- Field `self.disconnect_count` -/
  disconnectCount : Nat
  /-- Field `self.min_disconnect_interval` (set to 120 in the constructor) -/
  minDisconnectInterval : Rat
  /-- Field `self.reconnect_enabled` -/
  reconnectEnabled : Bool
deriving Repr, DecidableEq

/-- The cooldown window computed at the start of
`_check_connection_stability` from the current network-quality tier:
very_poor 300s, poor 120s, fair 60s, otherwise
`self.min_disconnect_interval`. -/
def stabilityWaitTime (s : ClientState) : Rat :=
  match getNetworkQualityLevel s.disconnectCount with
  | .veryPoor => 300
  | .poor => 120
  | .fair => 60
  | _ => s.minDisconnectInterval

/-- Embeds `MQTTClient._check_connection_stability` at clock reading `now`:
if `now - last_disconnect_time < wait_time`, increments the disconnect
count and reports unstable; otherwise resets the count to 0 and reports
stable. -/
def checkConnectionStability (s : ClientState) (now : Rat) : Bool × ClientState :=
  let waitTime := stabilityWaitTime s
  if now - s.lastDisconnectTime < waitTime then
    (false, { s with disconnectCount := s.disconnectCount + 1 })
  else
    (true, { s with disconnectCount := 0 })

/-- The `serious_errors = [1, 2, 3, 4, 5]` list of `_on_disconnect`. -/
def seriousErrors : List Int := [1, 2, 3, 4, 5]

/-- Embeds `MQTTClient._on_disconnect` restricted to its state effects and to
whether it invokes `_start_reconnect`.  `t1` is the `time.time()` read at
`self.last_disconnect_time = time.time()` and `t2` the read inside
`_check_connection_stability`; the two are consecutive clock reads of the
same callback.  Returns the new state and whether a reconnect was
scheduled. -/
def onDisconnect (s : ClientState) (rc : Int) (t1 t2 : Rat) : ClientState × Bool :=
  let s0 := { s with connectedFlag := false }
  if rc ≠ 0 then
    let s1 := { s0 with lastDisconnectTime := t1 }
    let stab := checkConnectionStability s1 t2
    if !stab.1 then (stab.2, false)
    else if seriousErrors.contains rc then
      (stab.2, s.reconnectEnabled)
    else (stab.2, false)
  else (s0, false)

/-! ### Publish paths (`MQTTClient.publish`, `DataForwarder._send_message`) -/

/-- The environment `MQTTClient.publish` interacts with: whether
`self.client` exists, the `self.is_connected` flag, the paho return code
the transport would give if `client.publish` were called, and whether the
transport call would raise. -/
structure PublishEnv where
  clientExists : Bool
  connectedFlag : Bool
  transportRc : Int
  transportRaises : Bool
deriving Repr, DecidableEq

/-- Result of one `MQTTClient.publish` call: whether `client.publish` was
attempted and the boolean the method returns.  The method catches every
exception and returns `False`, so the embedding is total. -/
structure PublishResult where
  attempted : Bool
  returned : Bool
deriving Repr, DecidableEq

/-- Embeds `MQTTClient.publish`: transmits only when `self.client` exists and
`self.is_connected`; otherwise logs and returns `False` without touching
the transport.  A transport exception is caught and yields `False`. -/
def mqttPublish (env : PublishEnv) : PublishResult :=
  if env.clientExists && env.connectedFlag then
    if env.transportRaises then ⟨true, false⟩
    else if env.transportRc = 0 then ⟨true, true⟩
    else ⟨true, false⟩
  else ⟨false, false⟩

/-- Embeds `DataForwarder._send_message`: returns `False` without calling
`mqtt_client.client.publish` when `mqtt_client.is_connected` is false;
otherwise attempts the publish and returns whether `result.rc == 0`. -/
def forwarderSendMessage (env : PublishEnv) : PublishResult :=
  if !env.connectedFlag then ⟨false, false⟩
  else if env.transportRaises then ⟨true, false⟩
  else if env.transportRc = 0 then ⟨true, true⟩
  else ⟨true, false⟩

/-! ### Rate-limited queue drain (`DataForwarder._process_message_queue`)

Queue entries are `(topic, payload, qos)` tuples.  `elapsed` models
`current_time - self.last_send_time`; `self.max_messages_per_second` is
the constant 10 set in `__init__`.  A "sent" message is one popped from
the queue and handed to `_send_message` (which never re-queues). -/

abbrev QMsg := String × String × Nat

/-- Python `int(x)` on a float: truncation toward zero, modelled exactly
on rationals. -/
def pyInt (q : Rat) : Int :=
  if 0 ≤ q then ⌊q⌋ else -⌊-q⌋

/-- The `while self.message_queue and sent_count < max_send_count` loop:
pops from the head until the queue is empty or the budget is spent;
returns (messages sent in order, remaining queue). -/
def drainLoop : List QMsg → Nat → List QMsg × List QMsg
  | q, 0 => ([], q)
  | [], _ + 1 => ([], [])
  | m :: rest, n + 1 =>
    let r := drainLoop rest n
    (m :: r.1, r.2)

/-- Embeds `DataForwarder._process_message_queue`: returns immediately on an
empty queue; otherwise computes
`max_send_count = max(1, int(elapsed * max_messages_per_second))` and
sends that many messages from the head of the queue. -/
def processMessageQueue (queue : List QMsg) (elapsed : Rat) : List QMsg × List QMsg :=
  if queue.isEmpty then ([], queue)
  else drainLoop queue (max 1 (pyInt (elapsed * 10))).toNat

/-! ### Batch splitting (`DataForwarder._send_grouped_data`)

`_send_grouped_data` iterates `range(0, len(group_items), batch_size)` and
sends the slice `group_items[i:i + batch_size]` per step when the group
exceeds the batch size, and the whole group as one message otherwise.
The loop is embedded with a fuel argument bounded by the list length,
which for `batchSize ≥ 1` is never exhausted. -/

def batchGo (batchSize : Nat) : Nat → List α → List (List α)
  | _, [] => []
  | 0, xs => [xs]
  | fuel + 1, xs => xs.take batchSize :: batchGo batchSize fuel (xs.drop batchSize)

/-- The splitting branch of `_send_grouped_data`
(`for i in range(0, len(group_items), batch_size)`). -/
def splitBatches (batchSize : Nat) (items : List α) : List (List α) :=
  batchGo batchSize items.length items

/-- One group's worth of `_send_grouped_data`: the list of outbound
message payloads (each a record batch in order) produced for a group. -/
def sendGroupBatches (groupItems : List α) (batchSize : Nat) : List (List α) :=
  if groupItems.length > batchSize then splitBatches batchSize groupItems
  else [groupItems]

/-! ### Redis store model and the three request/reply handlers

The store driver (`app/core/database.py`) is an external collaborator; the
handlers only use `exists`, `type`, `get`/`set`, `hget`/`hset`/`hgetall`,
`lindex`/`lset`, `sismember`/`sadd`.  A store is an association list from
Redis keys to typed values; all stored scalars are strings, as Redis
returns them (`decode_responses`). -/

inductive RVal where
  | str (s : String)
  | hash (fields : List (String × String))
  | list (xs : List String)
  | set (xs : List String)
deriving Repr, DecidableEq

abbrev Store := List (String × RVal)

/-- Replace the value bound to `k` (first binding) in an association list. -/
def storeSet (store : Store) (k : String) (v : RVal) : Store :=
  store.map (fun p => if p.1 = k then (k, v) else p)

/-- Redis `HSET`: overwrite the field if present, append it otherwise. -/
def hsetField (fields : List (String × String)) (k v : String) : List (String × String) :=
  if (fields.lookup k).isSome then
    fields.map (fun p => if p.1 = k then (k, v) else p)
  else fields ++ [(k, v)]

/-- Model of Python `int(s)`: optional surrounding spaces, optional sign,
one or more digits; `none` models `ValueError`. -/
def parsePyInt (s : String) : Option Int :=
  let l := s.data.dropWhile (fun c => c = ' ')
  let l := (l.reverse.dropWhile (fun c => c = ' ')).reverse
  let sl := splitSign l
  if !sl.2.isEmpty && sl.2.all isDigitChar then
    some (if sl.1 then -(digitsToNat sl.2 : Int) else (digitsToNat sl.2 : Int))
  else none

/-- Redis `LINDEX`: non-negative indices from the head, negative from the
tail; out of range gives `nil`. -/
def lindexList (xs : List String) (i : Int) : Option String :=
  if 0 ≤ i then xs[i.toNat]?
  else
    let j : Int := (xs.length : Int) + i
    if 0 ≤ j then xs[j.toNat]? else none

/-- Redis `LSET`: like `LINDEX` but sets the element; out of range raises,
modelled as `none`. -/
def lsetList (xs : List String) (i : Int) (v : String) : Option (List String) :=
  if 0 ≤ i then
    if i.toNat < xs.length then some (xs.set i.toNat v) else none
  else
    let j : Int := (xs.length : Int) + i
    if 0 ≤ j then some (xs.set j.toNat v) else none

/-- Python `device.replace('_', ' ')`: every underscore becomes a space. -/
def replaceUnderscores (s : String) : String :=
  String.mk (s.data.map (fun c => if c = '_' then ' ' else c))

/-- The Redis key built by both point handlers:
`f"{source}:{device_with_spaces}:{data_type}"` with every underscore of
`device` replaced by a space. -/
def redisKey (source device dataType : String) : String :=
  source ++ ":" ++ replaceUnderscores device ++ ":" ++ dataType

/-- Embeds `PointReader._get_redis_data`: branches on the stored type and returns
the single-pair dict `{key: ...}` the Python code builds, or `None`.  Hash
fields go through the inline numeric normalization (`readerNormalize`). -/
def getRedisData (store : Store) (source device dataType key : String) :
    Option (List (String × Value)) :=
  match store.lookup (redisKey source device dataType) with
  | none => none
  | some (RVal.hash fields) =>
    match fields.lookup key with
    | some v => some [(key, readerNormalize v)]
    | none => none
  | some (RVal.str v) => some [(key, Value.str v)]
  | some (RVal.list xs) =>
    match parsePyInt key with
    | none => none
    | some i =>
      match lindexList xs i with
      | some v => some [(key, Value.str v)]
      | none => none
  | some (RVal.set xs) =>
    if xs.contains key then some [(key, Value.str "exists")] else none

/-- Embeds `PointWriter._write_redis_data`: when the key is absent, creates it as
a hash with the single written field; otherwise writes into the existing
representation.  Returns the new store and the boolean the method
returns.  The written `value` is modelled as the string Redis stores. -/
def writeRedisData (store : Store) (source device dataType key value : String) :
    Store × Bool :=
  let rkey := redisKey source device dataType
  match store.lookup rkey with
  | none => ((rkey, RVal.hash [(key, value)]) :: store, true)
  | some (RVal.hash fields) => (storeSet store rkey (RVal.hash (hsetField fields key value)), true)
  | some (RVal.str _) => (storeSet store rkey (RVal.str value), true)
  | some (RVal.list xs) =>
    match parsePyInt key with
    | none => (store, false)
    | some i =>
      match lsetList xs i value with
      | none => (store, false)
      | some ys => (storeSet store rkey (RVal.list ys), true)
  | some (RVal.set xs) =>
    (storeSet store rkey (RVal.set (if xs.contains value then xs else xs ++ [value])), true)

/-- An inbound MQTT request payload as the handlers see it after
`json.loads`: either a JSON parse failure, a parsed string-valued JSON
object, or a payload whose handling raises an unexpected exception before
dispatch (the outer `except Exception` branch). -/
inductive Inbound where
  | malformed
  | obj (fields : List (String × String))
  | exceptional (message : String)
deriving Repr, DecidableEq

/-- A reply published on a handler's reply topic, keeping the fields the
claims are about (`result`-style classification and `msgId`). -/
inductive Reply where
  | readData (source device dataType : String) (value : List (String × Value)) (msgId : String)
  | writeOk (msgId : String)
  | writeFail (msgId : String)
  | validationFailed (msgId : String)
  | jsonError (msgId : String)
  | generalError (msgId : String)
deriving Repr, DecidableEq

/-- Embeds `PointReader._validate_read_request`: all of
`source, device, data_type, key, msgId` must be present. -/
def validateReadRequest (fields : List (String × String)) : Bool :=
  ["source", "device", "data_type", "key", "msgId"].all
    (fun f => (fields.lookup f).isSome)

/-- Embeds `PointWriter._validate_write_request`: additionally requires `value`. -/
def validateWriteRequest (fields : List (String × String)) : Bool :=
  ["source", "device", "data_type", "key", "value", "msgId"].all
    (fun f => (fields.lookup f).isSome)

/-- Field access `request_data[f]` after validation guaranteed presence. -/
def reqField (fields : List (String × String)) (f : String) : String :=
  (fields.lookup f).getD ""

/-- Embeds `PointReader._handle_read_request` composed with
`_process_read_request`: the list of replies published for one inbound
request.  JSON failure and validation failure reply; a valid request
replies only when `_get_redis_data` returns a value — on `None` the code
only logs a warning (point_reader.py lines 127-128). -/
def handleReadRequest (store : Store) (inp : Inbound) : List Reply :=
  match inp with
  | .malformed => [Reply.jsonError "unknown"]
  | .exceptional _ => [Reply.generalError "unknown"]
  | .obj fields =>
    if validateReadRequest fields then
      match getRedisData store (reqField fields "source") (reqField fields "device")
          (reqField fields "data_type") (reqField fields "key") with
      | some v =>
        [Reply.readData (reqField fields "source") (reqField fields "device")
          (reqField fields "data_type") v (reqField fields "msgId")]
      | none => []
    else [Reply.validationFailed ((fields.lookup "msgId").getD "unknown")]

/-- Embeds `PointWriter._handle_write_request` composed with
`_process_write_request`: returns the updated store and the replies
published.  A valid request always gets exactly one
`{result: success/fail, msgId}` reply. -/
def handleWriteRequest (store : Store) (inp : Inbound) : Store × List Reply :=
  match inp with
  | .malformed => (store, [Reply.jsonError "unknown"])
  | .exceptional _ => (store, [Reply.generalError "unknown"])
  | .obj fields =>
    if validateWriteRequest fields then
      let r := writeRedisData store (reqField fields "source") (reqField fields "device")
        (reqField fields "data_type") (reqField fields "key") (reqField fields "value")
      (r.1, [if r.2 then Reply.writeOk (reqField fields "msgId")
             else Reply.writeFail (reqField fields "msgId")])
    else (store, [Reply.validationFailed ((fields.lookup "msgId").getD "unknown")])

/-! ### Data caller (`DataCaller._handle_call_data_request`) -/

/-- An observable action of the data-call handler, in order. -/
inductive CallAction where
  | publishReply (result msgId : String)
  | forwardData
deriving Repr, DecidableEq

/-- Embeds `DataCaller._handle_call_data_request` composed with
`_process_call_data_request`: extracts `msgId` (empty string on JSON parse
failure or when absent), publishes the acknowledgment reply, then triggers
`data_forwarder._forward_data()`.  An unexpected exception publishes the
error reply with empty `msgId` and does not forward. -/
def handleCallDataRequest (inp : Inbound) : List CallAction :=
  match inp with
  | .malformed => [CallAction.publishReply "success" "", CallAction.forwardData]
  | .obj fields =>
    [CallAction.publishReply "success" ((fields.lookup "msgId").getD ""),
     CallAction.forwardData]
  | .exceptional _ => [CallAction.publishReply "fail" ""]

/-! ## Theorems -/

/-! ### Shared helper lemmas -/

/-- Characterization of whether `_on_disconnect` invokes `_start_reconnect`:
exactly when the reason code is serious, reconnect is enabled, and the
second clock read is at least the cooldown window after the first (the
freshly recorded disconnect time). -/
theorem onDisconnect_snd_eq (s : ClientState) (rc : Int) (t1 t2 : Rat) :
    (onDisconnect s rc t1 t2).2 =
      (seriousErrors.contains rc && s.reconnectEnabled &&
        !(t2 - t1 < stabilityWaitTime s)) := by
  by_cases h0 : rc = 0
  · subst h0
    simp [onDisconnect, seriousErrors]
  · have hwt : stabilityWaitTime { s with connectedFlag := false, lastDisconnectTime := t1 }
        = stabilityWaitTime s := rfl
    by_cases hc : t2 - t1 < stabilityWaitTime s
    · simp [onDisconnect, checkConnectionStability, h0, hwt, hc]
    · by_cases hm : rc ∈ seriousErrors <;>
        simp [onDisconnect, checkConnectionStability, h0, hwt, hc, hm]

theorem drainLoop_eq (q : List QMsg) (n : Nat) :
    drainLoop q n = (q.take n, q.drop n) := by
  induction q generalizing n with
  | nil => cases n <;> simp [drainLoop]
  | cons m rest ih => cases n <;> simp [drainLoop, ih]

/-- Head-form split of a bounded universal over `Nat`. -/
theorem forall_lt_succ_head {n : Nat} {P : Nat → Prop} :
    (∀ i < n + 1, P i) ↔ P 0 ∧ ∀ i < n, P (i + 1) := by
  constructor
  · intro h
    exact ⟨h 0 (Nat.succ_pos n), fun i hi => h (i + 1) (Nat.succ_lt_succ hi)⟩
  · rintro ⟨h0, h⟩ i hi
    cases i with
    | zero => exact h0
    | succ j => exact h j (Nat.lt_of_succ_lt_succ hi)

/-! ### C9 -/

/-- C9: whenever the connection flag is down, neither `MQTTClient.publish`
nor `DataForwarder._send_message` touches the transport and both return
`False`; both embeddings are total, modelling that no exception escapes to
the caller. -/
theorem publish_requires_connected (env : PublishEnv)
    (h : env.connectedFlag = false) :
    mqttPublish env = ⟨false, false⟩ ∧ forwarderSendMessage env = ⟨false, false⟩ := by
  simp [mqttPublish, forwarderSendMessage, h]

/-- Witness for C9 at a concrete disconnected environment. -/
theorem publish_requires_connected_witness :
    mqttPublish ⟨true, false, 0, false⟩ = ⟨false, false⟩ ∧
    forwarderSendMessage ⟨true, false, 0, false⟩ = ⟨false, false⟩ :=
  publish_requires_connected ⟨true, false, 0, false⟩ rfl

/-! ### C10 -/

/-- C10: the data-call handler always publishes its acknowledgment reply
before triggering the forward cycle, echoes the request `msgId` (empty
string when absent), and uses the empty string as `msgId` on a JSON parse
failure — unlike the point read and write handlers, whose JSON-parse-error
replies carry `msgId = "unknown"`. -/
theorem callData_ack_before_forward (store : Store) (fields : List (String × String)) :
    handleCallDataRequest Inbound.malformed =
      [CallAction.publishReply "success" "", CallAction.forwardData] ∧
    handleCallDataRequest (Inbound.obj fields) =
      [CallAction.publishReply "success" ((fields.lookup "msgId").getD ""),
       CallAction.forwardData] ∧
    handleReadRequest store Inbound.malformed = [Reply.jsonError "unknown"] ∧
    (handleWriteRequest store Inbound.malformed).2 = [Reply.jsonError "unknown"] :=
  ⟨rfl, rfl, rfl, rfl⟩

/-! ### C2 -/

/-- C2 counterexample: a syntactically valid, fully validated point-read
request addressed at an absent store entry produces zero replies — the
code only logs a warning (point_reader.py lines 127-128) — refuting the
claim that every such request gets exactly one reply. -/
theorem readRequest_unanswered_counterexample :
    validateReadRequest [("source", "modsrv"), ("device", "Gen_1"),
      ("data_type", "T"), ("key", "speed"), ("msgId", "abc")] = true ∧
    handleReadRequest [] (Inbound.obj [("source", "modsrv"), ("device", "Gen_1"),
      ("data_type", "T"), ("key", "speed"), ("msgId", "abc")]) = [] := by
  decide

/-- C2 amended: every inbound point-read request produces exactly one
reply, except a valid request whose addressed store value is absent
(`_get_redis_data` returns `None`), which produces no reply at all. -/
theorem handleReadRequest_reply_count (store : Store) (inp : Inbound) :
    (handleReadRequest store inp).length = 1 ∨
    (handleReadRequest store inp = [] ∧
     ∃ fields, inp = Inbound.obj fields ∧ validateReadRequest fields = true ∧
       getRedisData store (reqField fields "source") (reqField fields "device")
         (reqField fields "data_type") (reqField fields "key") = none) := by
  cases inp with
  | malformed => exact Or.inl rfl
  | exceptional m => exact Or.inl rfl
  | obj fields =>
    by_cases hv : validateReadRequest fields = true
    · cases hg : getRedisData store (reqField fields "source") (reqField fields "device")
          (reqField fields "data_type") (reqField fields "key") with
      | some v =>
        left
        simp [handleReadRequest, hv, hg]
      | none =>
        right
        exact ⟨by simp [handleReadRequest, hv, hg], fields, rfl, hv, hg⟩
    · left
      simp [handleReadRequest, hv]

/-! ### C1 -/

/-- C1 counterexample: a serious disconnect (reason code 4, bad
credentials) with reconnect enabled and the previous disconnect recorded
a million seconds in the past still schedules no reconnect: the handler
overwrites `last_disconnect_time` with the current time before
`_check_connection_stability` compares against it, so the stability gate —
which runs before the serious-error branch — fails and the handler returns
early. -/
theorem seriousDisconnect_cooldown_counterexample :
    seriousErrors.contains 4 = true ∧
    (⟨true, 0, 0, 120, true⟩ : ClientState).reconnectEnabled = true ∧
    (onDisconnect ⟨true, 0, 0, 120, true⟩ 4 1000000 1000000).2 = false := by
  refine ⟨by decide, rfl, ?_⟩
  simp [onDisconnect, checkConnectionStability, stabilityWaitTime,
    getNetworkQualityLevel, seriousErrors]

/-- C1 amended: a serious disconnect (codes 1-5) schedules a reconnect
only when reconnect is enabled and the cooldown window has elapsed between
the handler's own two clock reads — i.e. the network-quality cooldown gate
does apply to serious disconnects, and it is measured from the disconnect
time the handler has just recorded (`t1`), not from the previous
disconnect. -/
theorem onDisconnect_reconnect_iff (s : ClientState) (rc : Int) (t1 t2 : Rat) :
    (onDisconnect s rc t1 t2).2 = true ↔
      seriousErrors.contains rc = true ∧ s.reconnectEnabled = true ∧
      stabilityWaitTime s ≤ t2 - t1 := by
  rw [onDisconnect_snd_eq]
  simp [not_lt, and_assoc]

/-! ### C5 -/

/-- C5 counterexample: with zero consecutive disconnects the tier is
`excellent` but the cooldown window is `min_disconnect_interval = 120`
seconds, not the claimed 60; and a network-class disconnect (code 7) that
passes the stability gate (a million seconds elapsed between the clock
reads, count 5 → `fair` → 60 s window) still schedules no reconnect. -/
theorem cooldownWindow_counterexample :
    getNetworkQualityLevel 0 = NetworkQuality.excellent ∧
    stabilityWaitTime ⟨true, 0, 0, 120, true⟩ = 120 ∧
    stabilityWaitTime ⟨true, 0, 0, 120, true⟩ ≠ 60 ∧
    (onDisconnect ⟨false, 0, 5, 120, true⟩ 7 0 1000000).2 = false := by
  refine ⟨by decide, by decide, by decide, ?_⟩
  simp [onDisconnect, checkConnectionStability, stabilityWaitTime,
    getNetworkQualityLevel, seriousErrors]

/-- C5 amended: the tier thresholds are as claimed (0 / ≤3 / ≤10 / ≤20 /
>20 consecutive disconnects), but the cooldown windows are 120 s for
excellent and good (`min_disconnect_interval`), 60 s for fair, 120 s for
poor and 300 s for very_poor; and a network-class (non-serious) disconnect
never schedules a reconnect from the disconnect handler — passing the
cooldown gate merely resets the disconnect counter. -/
theorem networkQuality_tiers_and_cooldown (s : ClientState) (rc : Int)
    (t1 t2 : Rat) (h : s.minDisconnectInterval = 120) :
    (getNetworkQualityLevel s.disconnectCount = NetworkQuality.excellent ↔
      s.disconnectCount = 0) ∧
    (getNetworkQualityLevel s.disconnectCount = NetworkQuality.good ↔
      1 ≤ s.disconnectCount ∧ s.disconnectCount ≤ 3) ∧
    (getNetworkQualityLevel s.disconnectCount = NetworkQuality.fair ↔
      4 ≤ s.disconnectCount ∧ s.disconnectCount ≤ 10) ∧
    (getNetworkQualityLevel s.disconnectCount = NetworkQuality.poor ↔
      11 ≤ s.disconnectCount ∧ s.disconnectCount ≤ 20) ∧
    (getNetworkQualityLevel s.disconnectCount = NetworkQuality.veryPoor ↔
      21 ≤ s.disconnectCount) ∧
    (stabilityWaitTime s =
      if s.disconnectCount ≤ 3 then 120
      else if s.disconnectCount ≤ 10 then 60
      else if s.disconnectCount ≤ 20 then 120
      else 300) ∧
    (seriousErrors.contains rc = false → (onDisconnect s rc t1 t2).2 = false) := by
  refine ⟨?_, ?_, ?_, ?_, ?_, ?_, ?_⟩
  · unfold getNetworkQualityLevel
    split_ifs <;> simp_all <;> omega
  · unfold getNetworkQualityLevel
    split_ifs <;> simp_all <;> omega
  · unfold getNetworkQualityLevel
    split_ifs <;> simp_all <;> omega
  · unfold getNetworkQualityLevel
    split_ifs <;> simp_all <;> omega
  · unfold getNetworkQualityLevel
    split_ifs <;> simp_all <;> omega
  · unfold stabilityWaitTime getNetworkQualityLevel
    split_ifs <;> simp_all <;> omega
  · intro hrc
    rw [onDisconnect_snd_eq, hrc]
    simp

/-- Witness for C5 at a concrete state with the `__init__` value of
`min_disconnect_interval`. -/
theorem networkQuality_tiers_and_cooldown_witness :
    stabilityWaitTime ⟨true, 0, 2, 120, true⟩ = 120 ∧
    (onDisconnect ⟨true, 0, 2, 120, true⟩ 7 0 1000000).2 = false := by
  have h := networkQuality_tiers_and_cooldown ⟨true, 0, 2, 120, true⟩ 7 0 1000000 rfl
  exact ⟨by simpa using h.2.2.2.2.2.1, h.2.2.2.2.2.2 (by decide)⟩

/-! ### C7 -/

/-- C7: both the forwarder's map-value normalization and the point
reader's hash-read normalization turn a string parsing as an integral
float into that integer, a string parsing as a non-integral float into
that float, and leave any other string unchanged; and a point read of a
map field returns exactly the forwarder-normalized value. -/
theorem numericNormalization_spec (v : String) (q : Rat) :
    (parsePyFloat v = some q → q.den = 1 → convertValue v = Value.int q.num) ∧
    (parsePyFloat v = some q → q.den ≠ 1 → convertValue v = Value.rat q) ∧
    (parsePyFloat v = none → convertValue v = Value.str v) ∧
    readerNormalize v = convertValue v ∧
    (∀ (store : Store) (source device dataType key : String)
       (fields : List (String × String)),
      store.lookup (redisKey source device dataType) = some (RVal.hash fields) →
      fields.lookup key = some v →
      getRedisData store source device dataType key = some [(key, convertValue v)]) := by
  refine ⟨?_, ?_, ?_, rfl, ?_⟩
  · intro hp hd
    simp [convertValue, hp, hd]
  · intro hp hd
    simp [convertValue, hp, hd]
  · intro hp
    simp [convertValue, hp]
  · intro store source device dataType key fields hs hf
    simp [getRedisData, hs, hf]
    rfl

/-- Witness for C7 at the spec's example inputs. -/
theorem numericNormalization_witness :
    convertValue "12" = Value.int 12 ∧
    convertValue "12.5" = Value.rat (mkRat 25 2) ∧
    convertValue "hello" = Value.str "hello" := by
  refine ⟨?_, ?_, ?_⟩
  · exact (numericNormalization_spec "12" 12).1 (by decide) (by decide)
  · exact (numericNormalization_spec "12.5" (mkRat 25 2)).2.1 (by decide) (by decide)
  · exact (numericNormalization_spec "hello" 0).2.2.1 (by decide)

/-! ### C8 -/

/-- C8: a validated point-write request addressed at an absent store key
creates the entry as a hash holding the written field and publishes the
minimal `{result: "success", msgId}` reply with the request's `msgId`
echoed. -/
theorem pointWrite_creates_entry (store : Store)
    (source device dataType key value msgId : String)
    (habs : store.lookup (redisKey source device dataType) = none) :
    (writeRedisData store source device dataType key value).2 = true ∧
    (writeRedisData store source device dataType key value).1.lookup
        (redisKey source device dataType) = some (RVal.hash [(key, value)]) ∧
    (handleWriteRequest store (Inbound.obj [("source", source), ("device", device),
        ("data_type", dataType), ("key", key), ("value", value), ("msgId", msgId)])).2
      = [Reply.writeOk msgId] := by
  refine ⟨?_, ?_, ?_⟩
  · simp [writeRedisData, habs]
  · simp [writeRedisData, habs, List.lookup]
  · simp [handleWriteRequest, validateWriteRequest, reqField, List.lookup,
      writeRedisData, habs]

/-- Witness for C8 at the spec's end-to-end example against the empty
store. -/
theorem pointWrite_creates_entry_witness :
    (handleWriteRequest [] (Inbound.obj [("source", "modsrv"), ("device", "Gen_1"),
        ("data_type", "T"), ("key", "speed"), ("value", "1500"), ("msgId", "abc")])).2
      = [Reply.writeOk "abc"] ∧
    (writeRedisData [] "modsrv" "Gen_1" "T" "speed" "1500").1.lookup
        (redisKey "modsrv" "Gen_1" "T") = some (RVal.hash [("speed", "1500")]) :=
  ⟨(pointWrite_creates_entry [] "modsrv" "Gen_1" "T" "speed" "1500" "abc" rfl).2.2,
   (pointWrite_creates_entry [] "modsrv" "Gen_1" "T" "speed" "1500" "abc" rfl).2.1⟩

/-! ### C4 -/

/-- C4: one pass of `_process_message_queue` at a non-negative elapsed
time transmits the first `max(1, floor(elapsed * rate))` messages of the
queue (so exactly `min(queue length, max(1, floor(elapsed * rate)))` of
them, the queue being cut short), in FIFO order from the head, and leaves
exactly the remaining suffix queued in order. -/
theorem processMessageQueue_drain_spec (queue : List QMsg) (elapsed : Rat)
    (h : 0 ≤ elapsed) :
    processMessageQueue queue elapsed =
      (queue.take (max 1 ⌊elapsed * 10⌋.toNat),
       queue.drop (max 1 ⌊elapsed * 10⌋.toNat)) ∧
    (processMessageQueue queue elapsed).1.length =
      min queue.length (max 1 ⌊elapsed * 10⌋.toNat) ∧
    (processMessageQueue queue elapsed).1 ++ (processMessageQueue queue elapsed).2
      = queue := by
  have h10 : (0 : Rat) ≤ elapsed * 10 := by positivity
  have hpy : pyInt (elapsed * 10) = ⌊elapsed * 10⌋ := by
    simp [pyInt, h10]
  have hnat : (max 1 ⌊elapsed * 10⌋).toNat = max 1 ⌊elapsed * 10⌋.toNat := by
    omega
  have hmain : processMessageQueue queue elapsed =
      (queue.take (max 1 ⌊elapsed * 10⌋.toNat),
       queue.drop (max 1 ⌊elapsed * 10⌋.toNat)) := by
    unfold processMessageQueue
    by_cases hq : queue = []
    · subst hq
      simp
    · rw [if_neg (by simpa using hq)]
      rw [hpy, hnat, drainLoop_eq]
  refine ⟨hmain, ?_, ?_⟩
  · rw [hmain]
    simp [List.length_take, Nat.min_comm]
  · rw [hmain]
    exact List.take_append_drop _ _

/-- Witness for C4: three queued messages, 0.2 s elapsed at rate 10 —
budget `max(1, floor(2)) = 2`, so the first two messages go out and the
third stays queued. -/
theorem processMessageQueue_drain_spec_witness :
    processMessageQueue [("t1", "p1", 1), ("t2", "p2", 1), ("t3", "p3", 1)]
        (1 / 5 : Rat) =
      ([("t1", "p1", 1), ("t2", "p2", 1)], [("t3", "p3", 1)]) := by
  have h := processMessageQueue_drain_spec
    [("t1", "p1", 1), ("t2", "p2", 1), ("t3", "p3", 1)] (1 / 5 : Rat) (by norm_num)
  have hf : ⌊(1 / 5 : Rat) * 10⌋ = 2 := by norm_num
  rw [h.1, hf]
  rfl

/-! ### C6 -/

/-- With a positive batch size and enough fuel, the batching loop's
output concatenates back to the input (order and content preserved). -/
theorem batchGo_flatten {α : Type} (b : Nat) (hb : 1 ≤ b) :
    ∀ (fuel : Nat) (xs : List α), xs.length ≤ fuel →
      (batchGo b fuel xs).flatten = xs := by
  intro fuel
  induction fuel with
  | zero =>
    intro xs hfx
    have hx : xs = [] := List.eq_nil_of_length_eq_zero (Nat.le_zero.mp hfx)
    subst hx
    rfl
  | succ n ih =>
    intro xs hfx
    cases xs with
    | nil => rfl
    | cons x rest =>
      have hstep : batchGo b (n + 1) (x :: rest)
          = (x :: rest).take b :: batchGo b n ((x :: rest).drop b) := rfl
      have hlen : ((x :: rest).drop b).length ≤ n := by
        rw [List.length_drop]
        simp only [List.length_cons]
        simp only [List.length_cons] at hfx
        omega
      rw [hstep, List.flatten_cons, ih _ hlen, List.take_append_drop]

/-- With a positive batch size and enough fuel, the `i`-th batch is the
`i`-th consecutive slice of at most `b` records. -/
theorem batchGo_getElem {α : Type} (b : Nat) (hb : 1 ≤ b) :
    ∀ (fuel : Nat) (xs : List α), xs.length ≤ fuel → ∀ i : Nat,
      (batchGo b fuel xs)[i]? =
        if i * b < xs.length then some ((xs.drop (i * b)).take b) else none := by
  intro fuel
  induction fuel with
  | zero =>
    intro xs hfx i
    have hx : xs = [] := List.eq_nil_of_length_eq_zero (Nat.le_zero.mp hfx)
    subst hx
    rw [show batchGo b 0 ([] : List α) = [] from rfl]
    simp
  | succ n ih =>
    intro xs hfx i
    cases xs with
    | nil =>
      rw [show batchGo b (n + 1) ([] : List α) = [] from rfl]
      simp
    | cons x rest =>
      have hstep : batchGo b (n + 1) (x :: rest)
          = (x :: rest).take b :: batchGo b n ((x :: rest).drop b) := rfl
      have hlen : ((x :: rest).drop b).length ≤ n := by
        rw [List.length_drop]
        simp only [List.length_cons]
        simp only [List.length_cons] at hfx
        omega
      rw [hstep]
      cases i with
      | zero =>
        simp
      | succ j =>
        rw [List.getElem?_cons_succ, ih _ hlen j]
        rw [List.length_drop]
        rw [List.drop_drop]
        have hmul : (j + 1) * b = b + j * b := by
          rw [Nat.succ_mul]
          omega
        by_cases hc : j * b < (x :: rest).length - b
        · rw [if_pos hc, if_pos (by omega), hmul]
        · rw [if_neg hc, if_neg (by omega)]

/-- With a positive batch size and enough fuel, the number of batches is
the ceiling `(n + b - 1) / b` of `n / b`. -/
theorem batchGo_length {α : Type} (b : Nat) (hb : 1 ≤ b) :
    ∀ (fuel : Nat) (xs : List α), xs.length ≤ fuel →
      (batchGo b fuel xs).length = (xs.length + b - 1) / b := by
  intro fuel
  induction fuel with
  | zero =>
    intro xs hfx
    have hx : xs = [] := List.eq_nil_of_length_eq_zero (Nat.le_zero.mp hfx)
    subst hx
    rw [show batchGo b 0 ([] : List α) = [] from rfl]
    simp [Nat.div_eq_of_lt (by omega : b - 1 < b)]
  | succ n ih =>
    intro xs hfx
    cases xs with
    | nil =>
      rw [show batchGo b (n + 1) ([] : List α) = [] from rfl]
      simp [Nat.div_eq_of_lt (by omega : b - 1 < b)]
    | cons x rest =>
      have hstep : batchGo b (n + 1) (x :: rest)
          = (x :: rest).take b :: batchGo b n ((x :: rest).drop b) := rfl
      have hlen : ((x :: rest).drop b).length ≤ n := by
        rw [List.length_drop]
        simp only [List.length_cons]
        simp only [List.length_cons] at hfx
        omega
      rw [hstep, List.length_cons, ih _ hlen, List.length_drop]
      by_cases hbl : b ≤ (x :: rest).length
      · have h1 : (x :: rest).length - b + b - 1 = (x :: rest).length - 1 := by omega
        have h2 : (x :: rest).length + b - 1 = ((x :: rest).length - 1) + b := by
          simp only [List.length_cons]
          omega
        rw [h1, h2, Nat.add_div_right _ (by omega)]
      · have h0 : (x :: rest).length - b = 0 := by omega
        rw [h0]
        have hL : 1 ≤ (x :: rest).length := by simp
        rw [Nat.div_eq_of_lt (by omega : 0 + b - 1 < b)]
        rw [Nat.div_eq_of_lt_le (by omega : 1 * b ≤ (x :: rest).length + b - 1)
          (by omega : (x :: rest).length + b - 1 < (1 + 1) * b)]

/-- C6: for a group of `n ≥ 1` records and batch size `b ≥ 1`, the
forward cycle emits exactly `⌈n/b⌉ = (n + b - 1) / b` messages, the
`i`-th carrying the `i`-th consecutive slice of at most `b` records; the
concatenation of slices restores the group in its original order, and a
group with `n ≤ b` goes out as one single message. -/
theorem sendGroupBatches_spec {α : Type} (items : List α) (b : Nat)
    (hb : 1 ≤ b) (hn : 1 ≤ items.length) :
    (sendGroupBatches items b).length = (items.length + b - 1) / b ∧
    (∀ i : Nat, (sendGroupBatches items b)[i]? =
      if i * b < items.length then some ((items.drop (i * b)).take b) else none) ∧
    (sendGroupBatches items b).flatten = items ∧
    (items.length ≤ b → sendGroupBatches items b = [items]) := by
  by_cases hgt : items.length > b
  · have hrw : sendGroupBatches items b = batchGo b items.length items := by
      unfold sendGroupBatches splitBatches
      rw [if_pos hgt]
    refine ⟨?_, ?_, ?_, ?_⟩
    · rw [hrw, batchGo_length b hb items.length items le_rfl]
    · intro i
      rw [hrw, batchGo_getElem b hb items.length items le_rfl i]
    · rw [hrw, batchGo_flatten b hb items.length items le_rfl]
    · intro hle
      omega
  · have hle : items.length ≤ b := Nat.not_lt.mp hgt
    have hrw : sendGroupBatches items b = [items] := by
      unfold sendGroupBatches
      rw [if_neg hgt]
    refine ⟨?_, ?_, ?_, fun _ => hrw⟩
    · rw [hrw, List.length_singleton]
      exact (Nat.div_eq_of_lt_le (by omega : 1 * b ≤ items.length + b - 1)
        (by omega : items.length + b - 1 < (1 + 1) * b)).symm
    · intro i
      rw [hrw]
      cases i with
      | zero =>
        rw [if_pos (by omega : 0 * b < items.length)]
        simp [List.take_of_length_le hle]
      | succ j =>
        have hge : ¬ (j + 1) * b < items.length := by
          rw [Nat.succ_mul]
          omega
        rw [List.getElem?_cons_succ, if_neg hge]
        simp
    · rw [hrw]
      simp

set_option maxRecDepth 8000 in
/-- Witness for C6 at the spec's example: 130 records with batch size 50
yield exactly 3 messages of sizes 50, 50 and 30. -/
theorem sendGroupBatches_spec_witness :
    (sendGroupBatches (List.range 130) 50).length = 3 ∧
    (sendGroupBatches (List.range 130) 50).map List.length = [50, 50, 30] := by
  have h := sendGroupBatches_spec (List.range 130) 50 (by norm_num) (by simp)
  refine ⟨?_, by decide⟩
  rw [h.1]
  simp

/-! ### C3 -/

/-- C3 counterexample: the pattern `a/+`, which contains no multi-level
wildcard, has 2 segments yet matches the 3-segment topic `a/b/c` — the
length guard in `_topic_match` only rejects patterns with more segments
than the topic, and the matching loop ignores extra trailing topic
segments. -/
theorem topicMatch_segment_count_counterexample :
    topicMatch "a/+" "a/b/c" = true ∧
    (splitChar '/' "a/+").length = 2 ∧
    (splitChar '/' "a/b/c").length = 3 ∧
    containsChar "a/+" '#' = false := by
  decide

/-- For a pattern with no `#` segment, the matching loop succeeds exactly
when the topic has at least as many segments and every pattern segment is
`+` or equals the topic segment at the same position. -/
theorem matchParts_no_hash_iff (pp tp : List String)
    (hs : pp.contains "#" = false) :
    matchParts pp tp = true ↔
      pp.length ≤ tp.length ∧
      ∀ i < pp.length, pp[i]? = some "+" ∨ pp[i]? = tp[i]? := by
  induction pp generalizing tp with
  | nil =>
    simp [matchParts]
  | cons p ps ih =>
    rw [List.contains_cons] at hs
    have hph : ¬ p = "#" := by
      intro hcontra
      subst hcontra
      simp at hs
    have hps : ps.contains "#" = false := by
      rcases Bool.or_eq_false_iff.mp hs with ⟨_, h2⟩
      exact h2
    cases tp with
    | nil =>
      simp [matchParts]
    | cons t ts =>
      have hstep : matchParts (p :: ps) (t :: ts)
          = if p = "#" then true
            else if p = "+" then matchParts ps ts
            else if p = t then matchParts ps ts
            else false := rfl
      rw [hstep, if_neg hph]
      simp only [List.length_cons, Nat.add_le_add_iff_right, forall_lt_succ_head,
        List.getElem?_cons_zero, List.getElem?_cons_succ]
      by_cases hplus : p = "+"
      · subst hplus
        rw [if_pos rfl, ih ts hps]
        simp
      · rw [if_neg hplus]
        by_cases heq : p = t
        · subst heq
          rw [if_pos rfl, ih ts hps]
          simp
        · rw [if_neg heq]
          simp [hplus, heq]

/-- C3 amended: for a pattern that contains a wildcard character but no
`#` segment, `_topic_match` succeeds iff the topic has **at least** as
many segments and each pattern segment is `+` or equals the topic segment
at the same position — so `+` consumes exactly one segment at its
position (never zero), but equality of segment counts is *not* required:
extra trailing topic segments are ignored and the match is a
segment-prefix match. -/
theorem topicMatch_wildcard_iff (pattern topic : String)
    (hw : containsChar pattern '+' = true ∨ containsChar pattern '#' = true)
    (hs : (splitChar '/' pattern).contains "#" = false) :
    topicMatch pattern topic = true ↔
      (splitChar '/' pattern).length ≤ (splitChar '/' topic).length ∧
      ∀ i < (splitChar '/' pattern).length,
        (splitChar '/' pattern)[i]? = some "+" ∨
        (splitChar '/' pattern)[i]? = (splitChar '/' topic)[i]? := by
  have hsm : "#" ∉ splitChar '/' pattern := by simpa using hs
  by_cases he : pattern = topic
  · subst he
    rw [topicMatch, if_pos rfl]
    constructor
    · intro _
      exact ⟨le_refl _, fun i _ => Or.inr rfl⟩
    · intro _
      rfl
  · have hwb : (containsChar pattern '+' || containsChar pattern '#') = true := by
      rcases hw with h | h <;> simp [h]
    rw [topicMatch, if_neg he, if_pos hwb]
    by_cases hlen : (splitChar '/' pattern).length > (splitChar '/' topic).length
    · rw [if_pos (by simp [hlen, hsm])]
      simp only [Bool.false_eq_true, false_iff, not_and]
      intro hcontra
      omega
    · rw [if_neg (by simp [hlen])]
      exact matchParts_no_hash_iff _ _ hs

/-- Witness for C3's amended statement at the counterexample inputs. -/
theorem topicMatch_wildcard_iff_witness :
    topicMatch "a/+" "a/b/c" = true :=
  (topicMatch_wildcard_iff "a/+" "a/b/c" (Or.inl (by decide)) (by decide)).mpr
    (by decide)

end Netsrv
